import Mathlib

/-!
Shallow embedding of the `principle-of-least-resistance` packaging utilities:
`scripts/verify_archive.py`, `make_checksums.py`, `scripts/zenodo_pack.py`,
`scripts/prereg_pack.py` and `check_summary.py`.

Bytes are modelled as `List Nat`; the SHA-256 compression itself is kept as a
parameter `H : List Nat → String` (both the spec sentence and the code apply
the very same `hashlib.sha256`, so every claim about digests is uniform in
`H`); the incremental-hasher semantics (`update` concatenates into the
absorbed stream) is modelled explicitly.
-/

/-- The six characters Python `str.strip` / `str.split` treat as whitespace. -/
def isPySpace (c : Char) : Bool :=
  c = ' ' || c = '\t' || c = '\n' || c = '\r' || c = '\x0b' || c = '\x0c'

/-- Python `str.strip()`: drop leading and trailing whitespace. -/
def pyStrip (s : String) : String :=
  String.mk (((s.data.dropWhile isPySpace).reverse.dropWhile isPySpace).reverse)

/-- Worker for `str.split()` with no separator: split on runs of whitespace,
discarding empty tokens.  `acc` holds the current token reversed. -/
def splitWSAux : List Char → List Char → List (List Char)
  | [], acc => if acc.isEmpty then [] else [acc.reverse]
  | c :: cs, acc =>
    if isPySpace c then
      if acc.isEmpty then splitWSAux cs [] else acc.reverse :: splitWSAux cs []
    else splitWSAux cs (c :: acc)

/-- Python `str.split()` with no argument. -/
def pySplit (s : String) : List String := (splitWSAux s.data []).map String.mk

/-- Python `dict.__setitem__`: replace the value in place if the key exists,
otherwise append the binding (iteration order is insertion order). -/
def dictInsert (m : List (String × String)) (k v : String) : List (String × String) :=
  match m with
  | [] => [(k, v)]
  | e :: rest => if e.1 = k then (k, v) :: rest else e :: dictInsert rest k v

/-- Python `dict.__getitem__` (as an `Option`). -/
def dictLookup (m : List (String × String)) (k : String) : Option String :=
  (m.find? (fun e => e.1 = k)).map (fun e => e.2)

def dictKeys (m : List (String × String)) : List String := m.map (fun e => e.1)

/-- Python `dict.update`: insert every binding of `other`, in order. -/
def dictUpdate (m other : List (String × String)) : List (String × String) :=
  other.foldl (fun a e => dictInsert a e.1 e.2) m

/-- One iteration of the loop of `load_manifest` (verify_archive.py lines
23-33): strip the line, skip it when blank or a `#` comment, split on
whitespace, and when at least two tokens remain store
`checksums[parts[-1]] = parts[0]` (key = relative path, value = digest). -/
def manifestStep (m : List (String × String)) (raw : String) : List (String × String) :=
  let line := pyStrip raw
  if line.data.isEmpty then m
  else if line.data.head? = some '#' then m
  else
    let parts := pySplit line
    if 2 ≤ parts.length then dictInsert m (parts.getLastD "") (parts.headD "")
    else m

/-- `load_manifest` of verify_archive.py: fold `manifestStep` over the lines. -/
def load_manifest (lines : List String) : List (String × String) :=
  lines.foldl manifestStep []

/-- The header comment emitted by make_checksums.py line 88. -/
def manifestHeader : String := "# SHA256 checksums (relative to plr-prl/)"

/-- The manifest writer of make_checksums.py lines 87-92: a `#` header line
followed by one line `digest ++ two spaces ++ rel` per (rel, digest) entry. -/
def serializeManifest (entries : List (String × String)) : List String :=
  manifestHeader :: entries.map (fun e => e.2 ++ "  " ++ e.1)

/-- verify_archive.py lines 55-58: successive `dict.update` of each loaded
manifest into one combined mapping, in manifest-load order. -/
def combineManifests (ms : List (List String)) : List (String × String) :=
  ms.foldl (fun acc lines => dictUpdate acc (load_manifest lines)) []

/-- `hashlib` incremental-hash semantics: `update` appends the chunk to the
absorbed byte stream. -/
def hasherUpdate (st chunk : List Nat) : List Nat := st ++ chunk

/-- The chunk sequence produced by `iter(lambda: f.read(n), b"")`
(make_checksums.py line 20): successive `take n` pieces until the stream is
exhausted.  Fuel-indexed; `chunksOf` supplies fuel `l.length`, enough for any
chunk size `n ≥ 1`. -/
def chunksAux : Nat → Nat → List Nat → List (List Nat)
  | 0, _, _ => []
  | _ + 1, _, [] => []
  | fuel + 1, n, l => l.take n :: chunksAux fuel n (l.drop n)

def chunksOf (n : Nat) (l : List Nat) : List (List Nat) := chunksAux l.length n l

/-- `sha256_bytes` of verify_archive.py lines 18-21: one `update` with the
whole byte string, then `hexdigest` (the abstract `H`). -/
def sha256_bytes (H : List Nat → String) (b : List Nat) : String :=
  H (hasherUpdate [] b)

/-- The streaming hasher generalised over the chunk size: fold `update` over
the chunk sequence, then `hexdigest`. -/
def hashChunked (H : List Nat → String) (n : Nat) (content : List Nat) : String :=
  H ((chunksOf n content).foldl hasherUpdate [])

/-- `sha256_of` of make_checksums.py lines 17-22: stream in 1 MiB chunks. -/
def sha256_of (H : List Nat → String) (content : List Nat) : String :=
  hashChunked H (1024 * 1024) content

/-- A zip archive: members in central-directory order, name and content. -/
abbrev ZipArchive := List (String × List Nat)

/-- `str(pathlib.Path("plr-prl") / rel)` for the normalized relative paths
that manifests contain (they are produced by `Path.relative_to(ROOT)`). -/
def arcNameOf (rel : String) : String := "plr-prl/" ++ rel

/-- `ZipFile.read(name)`: `NameToInfo` is built in member order so a later
member with the same name wins; `None` models the `KeyError`. -/
def zipRead (ar : ZipArchive) (nm : String) : Option (List Nat) :=
  ((ar.filter (fun e => e.1 = nm)).getLast?).map (fun e => e.2)

/-- One iteration of the verification loop (verify_archive.py lines 66-82):
an entry passes when the member `plr-prl/<rel>` exists and its recomputed
digest equals the manifest digest. -/
def entryOk (H : List Nat → String) (ar : ZipArchive) (e : String × String) : Bool :=
  match zipRead ar (arcNameOf e.1) with
  | none => false
  | some data => sha256_bytes H data == e.2

/-- `ok_all`: the conjunction of `entryOk` over every combined entry. -/
def verifyLoop (H : List Nat → String) (ar : ZipArchive) (cs : List (String × String)) : Bool :=
  cs.all (entryOk H ar)

/-- `verify_archive` of verify_archive.py lines 36-92: fail when the archive
file is missing (`none`) or when no manifest was found; otherwise run the
per-entry loop over the combined mapping. -/
def verify_archive (H : List Nat → String) (ms : List (List String))
    (arOpt : Option ZipArchive) : Bool :=
  match arOpt with
  | none => false
  | some ar => if ms.isEmpty then false else verifyLoop H ar (combineManifests ms)

/-- The loop of `main` (verify_archive.py lines 114-125): verify every
archive, collect the verdicts, and exit 0 exactly when `all_ok` survived. -/
def runAllArchives (H : List Nat → String) (ms : List (List String))
    (ars : List (Option ZipArchive)) : List Bool × Nat :=
  let res := ars.map (verify_archive H ms)
  (res, if res.all (fun b => b) then 0 else 1)

/-! ## check_summary.py -/

/-- What the summarizer finds at a declared input path: no file at all, a
file that exists but cannot be opened or parsed, or a parsed table (we track
which of the three required columns are present, and the row count; the
floating-point statistics themselves are outside the embedding — claim C7 is
about which rows are emitted, not their numeric content). -/
inductive FileContent where
  | absent
  | unreadable
  | table (hasU hasResidual hasSigma : Bool) (nrows : Nat)
deriving DecidableEq

/-- `os.path.isfile`: an unreadable file is still a file. -/
def isFileFC : FileContent → Bool
  | FileContent.absent => false
  | _ => true

def FileContent.nrowsOf : FileContent → Nat
  | FileContent.table _ _ _ n => n
  | _ => 0

/-- One entry of the manifest's `figures:` list: `spec.get("input")` and
`spec.get("kind", "")`. -/
structure Fig where
  input : Option String
  kind : String
deriving DecidableEq

/-- `stats_for` of check_summary.py lines 14-33: `pd.read_csv` raises on a
missing or unreadable file, the column accesses `df["u"]`, `df["residual"]`,
`df["sigma"]` raise `KeyError` when absent; otherwise the statistics are
computed without error (all reductions are guarded by `if n`).  The `Except`
error models the uncaught Python exception. -/
def stats_forE : FileContent → Except String Nat
  | FileContent.absent => Except.error "FileNotFoundError"
  | FileContent.unreadable => Except.error "OSError"
  | FileContent.table hasU hasR hasS n =>
    if hasU && hasR && hasS then Except.ok n else Except.error "KeyError"

/-- The row-collection loop of `main` (check_summary.py lines 42-51): skip a
declared figure whose `input` is falsy or not a file; otherwise call
`stats_for` (whose exception, if any, propagates and aborts the run) and
append the row.  A row is identified by (input, kind, row count). -/
def collectRows (env : String → FileContent) :
    List Fig → Except String (List (String × String × Nat))
  | [] => Except.ok []
  | f :: fs =>
    match f.input with
    | none => collectRows env fs
    | some p =>
      if p = "" then collectRows env fs
      else if isFileFC (env p) then
        match stats_forE (env p) with
        | Except.error e => Except.error e
        | Except.ok n =>
          match collectRows env fs with
          | Except.error e => Except.error e
          | Except.ok rest => Except.ok ((p, f.kind, n) :: rest)
      else collectRows env fs

/-- The declared inputs that exist as files, in declaration order — what the
summarizer's output rows are claimed to be. -/
def declaredRows (env : String → FileContent) (figs : List Fig) :
    List (String × String × Nat) :=
  figs.filterMap (fun f =>
    match f.input with
    | none => none
    | some p =>
      if p = "" then none
      else if isFileFC (env p) then some (p, f.kind, (env p).nrowsOf)
      else none)

/-- An existing file on which `stats_for` does not raise: readable and with
the three required columns (an absent file never reaches `stats_for`). -/
def statsSafe : FileContent → Bool
  | FileContent.absent => true
  | FileContent.unreadable => false
  | FileContent.table hasU hasR hasS _ => hasU && hasR && hasS

/-! ## Filesystem model for the pack scripts and make_checksums.py

A directory's children carry the enumeration order the operating system
reports (`os.scandir`); an unchanged tree reports the same order, so the
order is part of the tree state. -/

inductive FsTree where
  | file : String → List Nat → FsTree
  | dir : String → List FsTree → FsTree

/-- Python `str.lower()` (ASCII suffices for the extension lists used). -/
def pyLower (s : String) : String := String.mk (s.data.map Char.toLower)

/-- `fn.lower().endswith(ext.lower())`. -/
def endsWithCI (fn ext : String) : Bool :=
  (pyLower ext).data.isSuffixOf (pyLower fn).data

/-- zenodo_pack.py line 40: directories pruned from the walk. -/
def pruneDirName (d : String) : Bool := d = "__pycache__" || d.startsWith "."

/-- The filename filter of `add_dir` (zenodo_pack.py lines 41-45). -/
def addDirFiles (exclExt exclNames : List String) (px : String)
    (cs : List FsTree) : List (String × List Nat) :=
  cs.filterMap (fun c =>
    match c with
    | FsTree.file n b =>
      if exclNames.contains n then none
      else if exclExt.any (fun e => endsWithCI n e) then none
      else some (px ++ n, b)
    | FsTree.dir _ _ => none)

mutual
/-- `add_dir` of zenodo_pack.py lines 38-48 (`os.walk` top-down): the files
of the current directory in enumeration order, then each surviving
subdirectory in order.  `px` is the archive-path prefix of this directory's
contents. -/
def add_dir (exclExt exclNames : List String) (px : String) :
    FsTree → List (String × List Nat)
  | FsTree.file _ _ => []
  | FsTree.dir _ cs =>
    addDirFiles exclExt exclNames px cs ++ addDirSubdirs exclExt exclNames px cs

def addDirSubdirs (exclExt exclNames : List String) (px : String) :
    List FsTree → List (String × List Nat)
  | [] => []
  | FsTree.file _ _ :: rest => addDirSubdirs exclExt exclNames px rest
  | FsTree.dir d gcs :: rest =>
    (if pruneDirName d then []
     else add_dir exclExt exclNames (px ++ d ++ "/") (FsTree.dir d gcs))
    ++ addDirSubdirs exclExt exclNames px rest
end

/-- Path components joined with `/`. -/
def joinParts : List String → String
  | [] => ""
  | [x] => x
  | x :: rest => x ++ "/" ++ joinParts rest

mutual
/-- `Path.rglob("*")` (prereg_pack.py, make_checksums.py), restricted to the
files it yields: for each directory in pre-order, its children in enumeration
order.  `pxParts` is the relative-path components of the directory itself. -/
def rglobWalk (pxParts : List String) : FsTree → List (List String × List Nat)
  | FsTree.file _ _ => []
  | FsTree.dir _ cs => rglobFilesOf pxParts cs ++ rglobSubdirs pxParts cs

def rglobFilesOf (pxParts : List String) : List FsTree → List (List String × List Nat)
  | [] => []
  | FsTree.file n b :: rest => (pxParts ++ [n], b) :: rglobFilesOf pxParts rest
  | FsTree.dir _ _ :: rest => rglobFilesOf pxParts rest

def rglobSubdirs (pxParts : List String) : List FsTree → List (List String × List Nat)
  | [] => []
  | FsTree.file _ _ :: rest => rglobSubdirs pxParts rest
  | FsTree.dir d gcs :: rest =>
    rglobWalk (pxParts ++ [d]) (FsTree.dir d gcs) ++ rglobSubdirs pxParts rest
end

/-- `add_dir` of prereg_pack.py lines 42-57: `rglob("*")`, then per file skip
it when any relative-path component is hidden or `__pycache__`, when its name
is excluded, or when its lowercased name ends in an excluded extension; the
archive path is `plr-prl/` + the path relative to the project root. -/
def prereg_add_dir (exclExt exclNames : List String) (base : String)
    (t : Option (List FsTree)) : List (String × List Nat) :=
  match t with
  | none => []
  | some cs =>
    (rglobWalk [base] (FsTree.dir base cs)).filterMap (fun e =>
      if e.1.any (fun s => s.startsWith "." || s = "__pycache__") then none
      else if exclNames.contains (e.1.getLastD "") then none
      else if exclExt.any (fun x => endsWithCI (e.1.getLastD "") x) then none
      else some ("plr-prl/" ++ joinParts e.1, e.2))

/-- The project tree as the scripts see it: the regular files directly under
the root (in enumeration order, with their bytes), the files in `dist/`, and
the four optional subtrees. -/
structure Fs where
  rootEntries : List (String × List Nat)
  distEntries : List (String × List Nat)
  reports : Option (List FsTree)
  scriptsDir : Option (List FsTree)
  figsDir : Option (List FsTree)
  dataDir : Option (List FsTree)

def rootFile (fs : Fs) (n : String) : Option (List Nat) :=
  (fs.rootEntries.find? (fun e => e.1 = n)).map (fun e => e.2)

def distFile (fs : Fs) (n : String) : Option (List Nat) :=
  (fs.distEntries.find? (fun e => e.1 = n)).map (fun e => e.2)

/-- Python `a or b` on strings/None: `a` unless it is falsy. -/
def pyOrOpt (a b : Option String) : Option String :=
  match a with
  | some s => if s = "" then b else some s
  | none => b

/-- The result of one pack-script run: the process exit code, the resolved
output path, and the archive content actually written (`none` when no
archive file was created — the mandatory-file check fires before
`zipfile.ZipFile(out, "w")` opens the output). -/
structure PackResult where
  exitCode : Nat
  outPath : String
  archive : Option (List (String × List Nat))
deriving DecidableEq

def mandatoryPdfs : List String := ["main.pdf", "supplemental.pdf"]

def rootBuildFiles : List String :=
  ["main.pdf", "supplemental.pdf", "manifest.yaml", "Makefile", "latexmkrc", "plr.bib"]

/-- CITATION.cff: prefer `dist/`, fall back to the root (both scripts). -/
def citationEntry (fs : Fs) : List (String × List Nat) :=
  match distFile fs "CITATION.cff" with
  | some b => [("plr-prl/CITATION.cff", b)]
  | none =>
    match rootFile fs "CITATION.cff" with
    | some b => [("plr-prl/CITATION.cff", b)]
    | none => []

def distMetaFiles : List String := ["zenodo.json", "README_packaging.md", "FILE_LISTING.txt"]

/-- The archive content written by zenodo_pack.py lines 70-103, in write
order. -/
def zenodoContent (fs : Fs) (includeData : Bool) : List (String × List Nat) :=
  (rootBuildFiles.filterMap (fun f =>
    (rootFile fs f).map (fun b => ("plr-prl/" ++ f, b))))
  ++ (fs.rootEntries.filterMap (fun e =>
    if e.1.startsWith "README" && e.1 ≠ "README_packaging.md"
    then some ("plr-prl/" ++ e.1, e.2) else none))
  ++ citationEntry fs
  ++ (distMetaFiles.filterMap (fun f =>
    (distFile fs f).map (fun b => ("plr-prl/" ++ f, b))))
  ++ (match fs.reports with
      | some cs => add_dir [] [] "plr-prl/reports/" (FsTree.dir "reports" cs)
      | none => [])
  ++ (match fs.scriptsDir with
      | some cs => add_dir [] [] "plr-prl/scripts/" (FsTree.dir "scripts" cs)
      | none => [])
  ++ (match fs.figsDir with
      | some cs => add_dir [".png", ".jpg", ".jpeg"] [] "plr-prl/figs/" (FsTree.dir "figs" cs)
      | none => [])
  ++ (if includeData then
        match fs.dataDir with
        | some cs => add_dir [] [] "plr-prl/data/" (FsTree.dir "data" cs)
        | none => []
      else [])

/-- `main` of zenodo_pack.py: resolve tag and output path, then the
mandatory-PDF check (lines 62-68), and only on success open and fill the
archive.  `gitTag` and `today` are the run-dependent oracles behind
`detect_git_tag()` and `datetime.utcnow()`. -/
def zenodoMain (fs : Fs) (outArg tagArg : Option String) (includeData : Bool)
    (gitTag : Option String) (today : String) : PackResult :=
  let tag := (pyOrOpt tagArg (pyOrOpt gitTag (some today))).getD today
  let baseName := "plr_zenodo_" ++ tag ++ ".zip"
  let out := (pyOrOpt outArg (some ("dist/" ++ baseName))).getD ""
  let missing := mandatoryPdfs.filter (fun f => (rootFile fs f).isNone)
  if !missing.isEmpty then ⟨1, out, none⟩
  else ⟨0, out, some (zenodoContent fs includeData)⟩

/-- The archive content written by prereg_pack.py lines 83-105, in write
order. -/
def preregContent (fs : Fs) (includeData : Bool) : List (String × List Nat) :=
  let readmes := (fs.rootEntries.filter (fun e => e.1.startsWith "README")).map (fun e => e.1)
  let needed := rootBuildFiles ++ readmes
  (needed.filterMap (fun f =>
    (rootFile fs f).map (fun b => ("plr-prl/" ++ f, b))))
  ++ citationEntry fs
  ++ (distMetaFiles.filterMap (fun f =>
    (distFile fs f).map (fun b => ("plr-prl/" ++ f, b))))
  ++ prereg_add_dir [] [] "reports" fs.reports
  ++ prereg_add_dir [] [] "scripts" fs.scriptsDir
  ++ prereg_add_dir [".png", ".jpg", ".jpeg"] [] "figs" fs.figsDir
  ++ (if includeData then prereg_add_dir [] [] "data" fs.dataDir else [])

/-- `main` of prereg_pack.py: same shape as `zenodoMain`, with a
caller-chosen base name; the mandatory-PDF check is lines 76-81. -/
def preregMain (fs : Fs) (outArg tagArg : Option String) (includeData : Bool)
    (name : String) (gitTag : Option String) (today : String) : PackResult :=
  let tag := (pyOrOpt tagArg (pyOrOpt gitTag (some today))).getD today
  let baseName := name ++ "_" ++ tag ++ ".zip"
  let out := (pyOrOpt outArg (some ("dist/" ++ baseName))).getD ""
  let missing := mandatoryPdfs.filter (fun f => (rootFile fs f).isNone)
  if !missing.isEmpty then ⟨1, out, none⟩
  else ⟨0, out, some (preregContent fs includeData)⟩

/-! ## make_checksums.py -/

/-- `pathlib.PurePath.suffix`: the part from the last dot, unless the dot is
the first or the last character of the name. -/
def pySuffix (nm : String) : String :=
  let cs := nm.data
  if cs.contains '.' then
    let afterRev := cs.reverse.takeWhile (fun c => c ≠ '.')
    let i := cs.length - 1 - afterRev.length
    if 0 < i && i < cs.length - 1 then String.mk ('.' :: afterRev.reverse) else ""
  else ""

def extskip : List String :=
  [".aux", ".log", ".out", ".toc", ".gz", ".synctex", ".synctex.gz", ".tmp"]

/-- `should_skip` of make_checksums.py lines 24-35, over the path components
relative to the project root (the name is the last component). -/
def should_skip (parts : List String) : Bool :=
  parts.any (fun s => s = "dist" || s = ".git" || s = "__pycache__")
  || (parts.getLastD "").startsWith ".DS_Store"
  || extskip.contains (pySuffix (parts.getLastD ""))

/-- `ROOT_FILES` of make_checksums.py line 15 (a Python set; iteration order
is irrelevant because `gather` sorts at the end). -/
def ROOT_FILES : List String :=
  ["main.pdf", "supplemental.pdf", "manifest.yaml", "Makefile", "latexmkrc", "plr.bib"]

/-- All files below an optional subtree, via `rglob("*")`. -/
def rglobAll (base : String) (t : Option (List FsTree)) : List (List String × List Nat) :=
  match t with
  | some cs => rglobWalk [base] (FsTree.dir base cs)
  | none => []

/-- The collection phase of `gather` (make_checksums.py lines 37-61), before
de-duplication and sorting: root files, `README*`, all of `scripts/`, all of
`reports/`, the PDFs of `figs/`, and optionally all of `data/`. -/
def gatherRaw (fs : Fs) (includeData : Bool) : List (List String × List Nat) :=
  (ROOT_FILES.filterMap (fun f => (rootFile fs f).map (fun b => ([f], b))))
  ++ (fs.rootEntries.filterMap (fun e =>
    if e.1.startsWith "README" then some ([e.1], e.2) else none))
  ++ ((rglobAll "scripts" fs.scriptsDir).filter (fun e => !should_skip e.1))
  ++ ((rglobAll "reports" fs.reports).filter (fun e => !should_skip e.1))
  ++ ((rglobAll "figs" fs.figsDir).filter (fun e =>
    (e.1.getLastD "").endsWith ".pdf" && !should_skip e.1))
  ++ (if includeData then
        (rglobAll "data" fs.dataDir).filter (fun e => !should_skip e.1)
      else [])

/-- `set(files)`: keep the first occurrence of each path. -/
def dedupByPath (l : List (List String × List Nat)) : List (List String × List Nat) :=
  l.foldl (fun acc e =>
    if acc.any (fun x => joinParts x.1 = joinParts e.1) then acc else acc ++ [e]) []

/-- Stable insertion into a list sorted by path string. -/
def insertByPath (e : List String × List Nat) :
    List (List String × List Nat) → List (List String × List Nat)
  | [] => [e]
  | x :: xs =>
    if joinParts e.1 ≤ joinParts x.1 then e :: x :: xs else x :: insertByPath e xs

/-- `sorted(..., key=lambda x: str(x))`: sorting by the absolute path string
equals sorting by the relative path string, because every path shares the
`ROOT/` prefix. -/
def sortByPath (l : List (List String × List Nat)) : List (List String × List Nat) :=
  l.foldr insertByPath []

/-- `gather` of make_checksums.py lines 37-70: collect, de-duplicate, sort. -/
def gather (fs : Fs) (includeData : Bool) : List (List String × List Nat) :=
  sortByPath (dedupByPath (gatherRaw fs includeData))

/-- The outcome of a make_checksums.py run: exit code, and the manifest file
written (output path and lines) — `none` when nothing was created, the empty
check at lines 79-81 firing before `mkdir` and `open(outpath, "w")`. -/
structure ChecksumResult where
  exitCode : Nat
  written : Option (String × List String)
deriving DecidableEq

/-- `main` of make_checksums.py lines 73-94: gather; abort with status 1 when
no file was gathered; otherwise write the header plus one
`digest ++ two spaces ++ rel` line per file, in gather order. -/
def makeChecksumsMain (H : List Nat → String) (fs : Fs) (includeData : Bool)
    (outArg : String) : ChecksumResult :=
  let files := gather fs includeData
  if files.isEmpty then ⟨1, none⟩
  else
    ⟨0, some (outArg,
      serializeManifest (files.map (fun e => (joinParts e.1, sha256_of H e.2))))⟩

/-! ## Concrete instances used by the witnesses -/

/-- A concrete stand-in for `hexdigest` used to instantiate the abstract
hash in witnesses (any function works; claims are uniform in `H`). -/
def hashLen : List Nat → String := fun b => toString (b.foldl (fun a x => a + x + 1) 0)

/-- A filesystem with nothing in it. -/
def fsEmpty : Fs := ⟨[], [], none, none, none, none⟩

/-- A filesystem holding just the two mandatory PDFs. -/
def fsPdfs : Fs := ⟨[("main.pdf", [1, 2]), ("supplemental.pdf", [3])], [], none, none, none, none⟩

/-- A 64-character lowercase-hex digest (what `hexdigest` returns). -/
def cDigest : String :=
  "aaaaaaaaaaaaaaaaaaaaaaaaaaaaaaaaaaaaaaaaaaaaaaaaaaaaaaaaaaaaaaaa"

/-- Summarizer environment for the witnesses: one good table, one absent. -/
def envC7 : String → FileContent := fun s =>
  if s = "a.csv" then FileContent.table true true true 3 else FileContent.absent

def figsC7 : List Fig := [⟨some "a.csv", "k1"⟩, ⟨some "b.csv", "k2"⟩, ⟨none, "k3"⟩]

/-- Summarizer environment whose declared file exists but cannot be read. -/
def envC7bad : String → FileContent := fun _ => FileContent.unreadable

def figC7bad : Fig := ⟨some "data/fig1.csv", "scatter"⟩

/-- Wellformedness of a manifest relative path as emitted by the writer:
nonempty and free of whitespace. -/
def goodRel (rel : String) : Bool :=
  !rel.data.isEmpty && rel.data.all (fun c => !isPySpace c)

/-- Wellformedness of a digest as emitted by `hexdigest`: nonempty, free of
whitespace, and not beginning with the comment character (all true of
64-character lowercase hex). -/
def goodDigest (d : String) : Bool :=
  !d.data.isEmpty && d.data.all (fun c => !isPySpace c) && d.data.head? != some '#'

/-! ## Helper lemmas -/

theorem chunksAux_join (n : Nat) (hn : 0 < n) :
    ∀ (fuel : Nat) (l : List Nat), l.length ≤ fuel → (chunksAux fuel n l).flatten = l := by
  intro fuel
  induction fuel with
  | zero =>
    intro l hl
    have hnil : l = [] := List.eq_nil_of_length_eq_zero (Nat.le_zero.mp hl)
    subst hnil
    rfl
  | succ fuel ih =>
    intro l hl
    cases l with
    | nil => rfl
    | cons a as =>
      simp only [chunksAux, List.flatten_cons]
      rw [ih ((a :: as).drop n)]
      · exact List.take_append_drop n (a :: as)
      · have hdrop : ((a :: as).drop n).length = (a :: as).length - n :=
          List.length_drop n (a :: as)
        have hlen : (a :: as).length = as.length + 1 := rfl
        omega

theorem foldl_hasherUpdate (cs : List (List Nat)) :
    ∀ init, cs.foldl hasherUpdate init = init ++ cs.flatten := by
  induction cs with
  | nil => intro init; simp
  | cons c cs ih => intro init; simp [hasherUpdate, ih, List.append_assoc]

theorem hashChunked_eq_of_pos (H : List Nat → String) (b : List Nat) (n : Nat) (hn : 0 < n) :
    hashChunked H n b = sha256_bytes H b := by
  unfold hashChunked sha256_bytes chunksOf
  rw [foldl_hasherUpdate, chunksAux_join n hn b.length b le_rfl]
  simp [hasherUpdate]

/-- C6: the chunked hasher (`sha256_of`, streaming in fixed 1 MiB pieces)
produces the same digest as the one-shot hasher (`sha256_bytes`) on every
byte sequence, and more generally the digest is independent of the chunk
size used to stream the content. -/
theorem chunked_hash_eq_one_shot (H : List Nat → String) (b : List Nat) :
    sha256_of H b = sha256_bytes H b ∧
      ∀ n, 0 < n → hashChunked H n b = sha256_bytes H b :=
  ⟨hashChunked_eq_of_pos H b (1024 * 1024) (by norm_num),
    fun n hn => hashChunked_eq_of_pos H b n hn⟩

theorem chunked_hash_eq_one_shot_witness :
    (0 : Nat) < 3 ∧ sha256_of hashLen [5, 6, 7] = sha256_bytes hashLen [5, 6, 7] ∧
      hashChunked hashLen 3 [5, 6, 7] = sha256_bytes hashLen [5, 6, 7] :=
  ⟨by decide, (chunked_hash_eq_one_shot hashLen [5, 6, 7]).1,
    (chunked_hash_eq_one_shot hashLen [5, 6, 7]).2 3 (by decide)⟩

theorem manifestStep_eq_of_short (m : List (String × String)) (line : String)
    (hshort : (pySplit (pyStrip line)).length < 2) :
    manifestStep m line = m := by
  simp only [manifestStep]
  split
  · rfl
  · split
    · rfl
    · split
      · omega
      · rfl

/-- C9: a stripped line that is neither blank nor a `#` comment but has
fewer than two whitespace-separated tokens contributes no manifest entry:
deleting it from the line sequence leaves `load_manifest` unchanged (and the
parser is total, so no error is raised). -/
theorem short_line_ignored (line : String) (ls1 ls2 : List String)
    (hblank : (pyStrip line).data ≠ [])
    (hcomment : (pyStrip line).data.head? ≠ some '#')
    (hshort : (pySplit (pyStrip line)).length < 2) :
    load_manifest (ls1 ++ line :: ls2) = load_manifest (ls1 ++ ls2) := by
  unfold load_manifest
  rw [List.foldl_append, List.foldl_append, List.foldl_cons,
    manifestStep_eq_of_short _ line hshort]

theorem short_line_ignored_witness :
    (pyStrip "lonetoken").data ≠ [] ∧ (pyStrip "lonetoken").data.head? ≠ some '#' ∧
      (pySplit (pyStrip "lonetoken")).length < 2 ∧
      load_manifest ([] ++ "lonetoken" :: ["aa  bb"]) = load_manifest ([] ++ ["aa  bb"]) :=
  ⟨by decide, by decide, by decide,
    short_line_ignored "lonetoken" [] ["aa  bb"] (by decide) (by decide) (by decide)⟩

theorem entryOk_eq_true_iff (H : List Nat → String) (ar : ZipArchive) (e : String × String) :
    entryOk H ar e = true ↔
      ∃ b, zipRead ar (arcNameOf e.1) = some b ∧ sha256_bytes H b = e.2 := by
  unfold entryOk
  cases h : zipRead ar (arcNameOf e.1) with
  | none => simp [h]
  | some bs => simp [h, beq_iff_eq]

/-- C1: for a nonempty manifest collection, `verify_archive` reports success
on an archive exactly when every entry of the combined manifest mapping has
an archive member at `plr-prl/<relative path>` whose recomputed digest
equals the manifest digest. -/
theorem verify_archive_success_iff (H : List Nat → String) (ms : List (List String))
    (ar : ZipArchive) (hms : ms ≠ []) :
    verify_archive H ms (some ar) = true ↔
      ∀ e ∈ combineManifests ms,
        ∃ b, zipRead ar (arcNameOf e.1) = some b ∧ sha256_bytes H b = e.2 := by
  unfold verify_archive verifyLoop
  have hempty : ms.isEmpty = false := by
    cases ms with
    | nil => exact absurd rfl hms
    | cons x xs => rfl
  simp only [hempty, Bool.false_eq_true, if_false, List.all_eq_true, entryOk_eq_true_iff]

theorem verify_archive_success_iff_witness :
    ([["6  x"]] : List (List String)) ≠ [] ∧
      (verify_archive hashLen [["6  x"]] (some [("plr-prl/x", [5])]) = true ↔
        ∀ e ∈ combineManifests [["6  x"]],
          ∃ b, zipRead [("plr-prl/x", [5])] (arcNameOf e.1) = some b ∧
            sha256_bytes hashLen b = e.2) :=
  ⟨by decide, verify_archive_success_iff hashLen [["6  x"]] [("plr-prl/x", [5])] (by decide)⟩

/-- C8: the verifier's `main`, run over a list of archives, exits 0 exactly
when every archive passes `verify_archive` (a missing archive file counts as
failing), and it records one verdict per archive — every archive is
checked. -/
theorem verify_main_exit_iff (H : List Nat → String) (ms : List (List String))
    (ars : List (Option ZipArchive)) (hne : ars ≠ []) :
    (runAllArchives H ms ars).1.length = ars.length ∧
      ((runAllArchives H ms ars).2 = 0 ↔ ∀ a ∈ ars, verify_archive H ms a = true) := by
  constructor
  · simp [runAllArchives]
  · simp only [runAllArchives]
    split
    case isTrue h =>
      simp only [eq_self_iff_true, true_iff]
      intro a ha
      exact List.all_eq_true.mp h _ (List.mem_map_of_mem _ ha)
    case isFalse h =>
      constructor
      · intro h10; exact absurd h10 one_ne_zero
      · intro hall
        exfalso
        apply h
        rw [List.all_eq_true]
        intro b hb
        rcases List.mem_map.mp hb with ⟨a, ha, rfl⟩
        exact hall a ha

theorem verify_main_exit_iff_witness :
    ([none] : List (Option ZipArchive)) ≠ [] ∧
      ((runAllArchives hashLen [] [none]).1.length = 1 ∧
        ((runAllArchives hashLen [] [none]).2 = 0 ↔
          ∀ a ∈ ([none] : List (Option ZipArchive)), verify_archive hashLen [] a = true)) :=
  ⟨by decide, verify_main_exit_iff hashLen [] [none] (by decide)⟩

theorem dictLookup_cons (e : String × String) (rest : List (String × String)) (k : String) :
    dictLookup (e :: rest) k = if e.1 = k then some e.2 else dictLookup rest k := by
  by_cases h : e.1 = k
  · simp [dictLookup, List.find?_cons, h]
  · simp [dictLookup, List.find?_cons, h]

theorem dictLookup_insert_self (m : List (String × String)) (k v : String) :
    dictLookup (dictInsert m k v) k = some v := by
  induction m with
  | nil => simp [dictInsert, dictLookup_cons]
  | cons e rest ih =>
    by_cases h : e.1 = k
    · simp [dictInsert, h, dictLookup_cons]
    · simp only [dictInsert, if_neg h]
      rw [dictLookup_cons, if_neg h]
      exact ih

theorem dictLookup_insert_ne (m : List (String × String)) (k v k' : String) (h : k' ≠ k) :
    dictLookup (dictInsert m k v) k' = dictLookup m k' := by
  have hk : k ≠ k' := fun hh => h hh.symm
  induction m with
  | nil => simp [dictInsert, dictLookup_cons, dictLookup, hk]
  | cons e rest ih =>
    by_cases he : e.1 = k
    · subst he
      rw [dictInsert, if_pos rfl, dictLookup_cons, dictLookup_cons, if_neg hk, if_neg hk]
    · rw [dictInsert, if_neg he, dictLookup_cons, dictLookup_cons]
      by_cases he2 : e.1 = k'
      · rw [if_pos he2, if_pos he2]
      · rw [if_neg he2, if_neg he2]
        exact ih

theorem mem_dictKeys_insert (m : List (String × String)) (k v x : String) :
    x ∈ dictKeys (dictInsert m k v) ↔ x ∈ dictKeys m ∨ x = k := by
  induction m with
  | nil => simp [dictInsert, dictKeys]
  | cons e rest ih =>
    by_cases h : e.1 = k
    · subst h
      have hstep : dictInsert (e :: rest) e.1 v = (e.1, v) :: rest := by
        simp [dictInsert]
      rw [hstep]
      simp only [dictKeys, List.map_cons, List.mem_cons]
      tauto
    · simp only [dictInsert, if_neg h, dictKeys, List.map_cons, List.mem_cons] at ih ⊢
      tauto

theorem nodup_dictKeys_insert (m : List (String × String)) (k v : String)
    (h : (dictKeys m).Nodup) : (dictKeys (dictInsert m k v)).Nodup := by
  induction m with
  | nil => simp [dictInsert, dictKeys]
  | cons e rest ih =>
    simp only [dictKeys, List.map_cons, List.nodup_cons] at h
    by_cases he : e.1 = k
    · subst he
      have hstep : dictInsert (e :: rest) e.1 v = (e.1, v) :: rest := by
        simp [dictInsert]
      rw [hstep]
      simp only [dictKeys, List.map_cons, List.nodup_cons]
      exact h
    · simp only [dictInsert, if_neg he, dictKeys, List.map_cons, List.nodup_cons]
      refine ⟨?_, ih h.2⟩
      intro hmem
      rcases (mem_dictKeys_insert rest k v e.1).mp hmem with hh | hh
      · exact h.1 hh
      · exact he hh

theorem nodup_keys_manifestStep (m : List (String × String)) (line : String)
    (h : (dictKeys m).Nodup) : (dictKeys (manifestStep m line)).Nodup := by
  simp only [manifestStep]
  split
  · exact h
  · split
    · exact h
    · split
      · exact nodup_dictKeys_insert _ _ _ h
      · exact h

theorem nodup_keys_foldl_manifestStep (lines : List String) :
    ∀ m : List (String × String), (dictKeys m).Nodup →
      (dictKeys (lines.foldl manifestStep m)).Nodup := by
  induction lines with
  | nil => intro m h; exact h
  | cons l rest ih =>
    intro m h
    exact ih _ (nodup_keys_manifestStep m l h)

theorem nodup_keys_load_manifest (lines : List String) :
    (dictKeys (load_manifest lines)).Nodup :=
  nodup_keys_foldl_manifestStep lines [] (by simp [dictKeys])

theorem dictLookup_update_of_not_mem (other : List (String × String)) :
    ∀ (m : List (String × String)) (k : String), k ∉ dictKeys other →
      dictLookup (dictUpdate m other) k = dictLookup m k := by
  induction other with
  | nil => intro m k _; rfl
  | cons e rest ih =>
    intro m k h
    simp only [dictKeys, List.map_cons, List.mem_cons] at h
    push_neg at h
    have step : dictUpdate m (e :: rest) = dictUpdate (dictInsert m e.1 e.2) rest := rfl
    rw [step, ih _ k (by simpa [dictKeys] using h.2), dictLookup_insert_ne _ _ _ _ h.1]

theorem dictLookup_update_of_mem (other : List (String × String)) :
    ∀ (m : List (String × String)) (k : String), k ∈ dictKeys other →
      (dictKeys other).Nodup →
      dictLookup (dictUpdate m other) k = dictLookup other k := by
  induction other with
  | nil => intro m k h _; simp [dictKeys] at h
  | cons e rest ih =>
    intro m k hmem hnd
    simp only [dictKeys, List.map_cons, List.mem_cons] at hmem
    simp only [dictKeys, List.map_cons, List.nodup_cons] at hnd
    have step : dictUpdate m (e :: rest) = dictUpdate (dictInsert m e.1 e.2) rest := rfl
    by_cases hk : k ∈ dictKeys rest
    · have hne : e.1 ≠ k := by
        intro hh
        exact hnd.1 (by simpa [dictKeys, hh] using hk)
      rw [step, ih _ k hk hnd.2, dictLookup_cons, if_neg hne]
    · have hke : k = e.1 := by
        rcases hmem with hh | hh
        · exact hh
        · exact absurd (by simpa [dictKeys] using hh) hk
      rw [step, hke, dictLookup_update_of_not_mem rest _ e.1 (hke ▸ hk),
        dictLookup_insert_self, dictLookup_cons, if_pos rfl]

theorem dictLookup_mem_keys (m : List (String × String)) (k v : String)
    (h : dictLookup m k = some v) : k ∈ dictKeys m := by
  induction m with
  | nil => simp [dictLookup] at h
  | cons e rest ih =>
    rw [dictLookup_cons] at h
    by_cases he : e.1 = k
    · simp [dictKeys, he.symm]
    · rw [if_neg he] at h
      simp only [dictKeys, List.map_cons, List.mem_cons]
      exact Or.inr (by simpa [dictKeys] using ih h)

/-- C4: when the same relative path occurs in two loaded manifests with
different digests, the combined mapping built by successive `dict.update`
holds the digest of the later-loaded manifest. -/
theorem combined_manifest_later_wins (ls1 ls2 : List String) (rel d1 d2 : String)
    (h1 : dictLookup (load_manifest ls1) rel = some d1)
    (h2 : dictLookup (load_manifest ls2) rel = some d2)
    (hne : d1 ≠ d2) :
    dictLookup (combineManifests [ls1, ls2]) rel = some d2 := by
  have hmem := dictLookup_mem_keys _ _ _ h2
  have hnd := nodup_keys_load_manifest ls2
  show dictLookup (dictUpdate (dictUpdate [] (load_manifest ls1)) (load_manifest ls2)) rel
    = some d2
  rw [dictLookup_update_of_mem _ _ _ hmem hnd, h2]

theorem combined_manifest_later_wins_witness :
    dictLookup (load_manifest ["d1  a"]) "a" = some "d1" ∧
      dictLookup (load_manifest ["d2  a"]) "a" = some "d2" ∧ ("d1" : String) ≠ "d2" ∧
      dictLookup (combineManifests [["d1  a"], ["d2  a"]]) "a" = some "d2" :=
  ⟨by decide, by decide, by decide,
    combined_manifest_later_wins ["d1  a"] ["d2  a"] "a" "d1" "d2"
      (by decide) (by decide) (by decide)⟩

/-- C7 counterexample: a declared input that exists but is unreadable is not
skipped — `pd.read_csv`'s exception aborts the whole run (the claim predicts
`Except.ok []`: the input skipped and the run succeeding). -/
theorem collectRows_unreadable_fails_cex :
    collectRows envC7bad [figC7bad] = Except.error "OSError" := rfl

/-- C7 (amended): a declared input that is missing (or has a falsy path) is
skipped without failing the run, and — provided every declared input that
does exist is a readable table with the required columns — the emitted rows
are exactly the declared inputs that exist, in declaration order. -/
theorem collectRows_skips_missing (env : String → FileContent) (figs : List Fig)
    (hsafe : ∀ f ∈ figs, ∀ p, f.input = some p → statsSafe (env p) = true) :
    collectRows env figs = Except.ok (declaredRows env figs) := by
  induction figs with
  | nil => rfl
  | cons f fs ih =>
    have hf := hsafe f (List.mem_cons_self f fs)
    have hrest : ∀ g ∈ fs, ∀ p, g.input = some p → statsSafe (env p) = true :=
      fun g hg => hsafe g (List.mem_cons_of_mem f hg)
    cases hin : f.input with
    | none => simp [collectRows, declaredRows, hin, ih hrest, List.filterMap_cons]
    | some p =>
      by_cases hp : p = ""
      · simp [collectRows, declaredRows, hin, hp, ih hrest, List.filterMap_cons]
      · cases hc : env p with
        | absent =>
          simp [collectRows, declaredRows, hin, hp, hc, isFileFC, ih hrest,
            List.filterMap_cons]
        | unreadable =>
          have := hf p hin
          rw [hc] at this
          exact absurd this (by simp [statsSafe])
        | table hu hr hs n =>
          have hcols : (hu && hr && hs) = true := by
            have := hf p hin
            rw [hc] at this
            simpa [statsSafe] using this
          simp [collectRows, declaredRows, hin, hp, hc, isFileFC, stats_forE, hcols,
            ih hrest, FileContent.nrowsOf, List.filterMap_cons]

theorem collectRows_skips_missing_witness :
    declaredRows envC7 figsC7 = [("a.csv", "k1", 3)] ∧
      collectRows envC7 figsC7 = Except.ok (declaredRows envC7 figsC7) :=
  ⟨by decide, collectRows_skips_missing envC7 figsC7 (by
    intro f hf p hp
    simp only [figsC7, List.mem_cons, List.not_mem_nil, or_false] at hf
    rcases hf with rfl | rfl | rfl
    · simp only [] at hp
      injection hp with hp
      subst hp
      decide
    · simp only [] at hp
      injection hp with hp
      subst hp
      decide
    · simp at hp)⟩

/-- C3: when a mandatory PDF is absent, both archive builders exit with
status 1 and no archive file is created at the target output path — the
mandatory-file check precedes the `zipfile.ZipFile(out, "w")` open in both
scripts. -/
theorem pack_missing_mandatory_aborts (fs : Fs) (outA tagA : Option String)
    (incD : Bool) (nm : String) (g : Option String) (d : String)
    (hmiss : rootFile fs "main.pdf" = none ∨ rootFile fs "supplemental.pdf" = none) :
    ((zenodoMain fs outA tagA incD g d).exitCode = 1 ∧
      (zenodoMain fs outA tagA incD g d).archive = none) ∧
    ((preregMain fs outA tagA incD nm g d).exitCode = 1 ∧
      (preregMain fs outA tagA incD nm g d).archive = none) := by
  have hne : mandatoryPdfs.filter (fun f => (rootFile fs f).isNone) ≠ [] := by
    rcases hmiss with h | h
    · intro hnil
      have hm : "main.pdf" ∈ mandatoryPdfs.filter (fun f => (rootFile fs f).isNone) :=
        List.mem_filter.mpr ⟨by simp [mandatoryPdfs], by simp [h]⟩
      rw [hnil] at hm
      exact absurd hm (List.not_mem_nil _)
    · intro hnil
      have hm : "supplemental.pdf" ∈ mandatoryPdfs.filter (fun f => (rootFile fs f).isNone) :=
        List.mem_filter.mpr ⟨by simp [mandatoryPdfs], by simp [h]⟩
      rw [hnil] at hm
      exact absurd hm (List.not_mem_nil _)
  have hbool : (mandatoryPdfs.filter (fun f => (rootFile fs f).isNone)).isEmpty = false := by
    cases hcase : mandatoryPdfs.filter (fun f => (rootFile fs f).isNone) with
    | nil => exact absurd hcase hne
    | cons a as => rfl
  refine ⟨⟨?_, ?_⟩, ?_, ?_⟩ <;> simp [zenodoMain, preregMain, hbool]

theorem pack_missing_mandatory_aborts_witness :
    (rootFile fsEmpty "main.pdf" = none ∨ rootFile fsEmpty "supplemental.pdf" = none) ∧
      (((zenodoMain fsEmpty none none false none "20260101").exitCode = 1 ∧
        (zenodoMain fsEmpty none none false none "20260101").archive = none) ∧
       ((preregMain fsEmpty none none false "plr_prereg" none "20260101").exitCode = 1 ∧
        (preregMain fsEmpty none none false "plr_prereg" none "20260101").archive = none)) :=
  ⟨Or.inl (by decide),
    pack_missing_mandatory_aborts fsEmpty none none false "plr_prereg" none "20260101"
      (Or.inl (by decide))⟩

/-- C5: with an explicit (truthy) tag and name, two runs of either archive
builder over the same filesystem state produce identical results — in
particular byte-for-byte identical archive content — regardless of the
run-dependent oracles (git revision lookup, current date); the walk order is
a function of the unchanged tree alone. -/
theorem pack_build_deterministic (fs : Fs) (outA : Option String) (incD : Bool)
    (nm t : String) (g1 g2 : Option String) (d1 d2 : String) (ht : t ≠ "") :
    zenodoMain fs outA (some t) incD g1 d1 = zenodoMain fs outA (some t) incD g2 d2 ∧
      preregMain fs outA (some t) incD nm g1 d1 = preregMain fs outA (some t) incD nm g2 d2 := by
  have htag : ∀ (g : Option String) (d : String),
      (pyOrOpt (some t) (pyOrOpt g (some d))).getD d = t := by
    intro g d
    simp [pyOrOpt, ht]
  constructor
  · simp only [zenodoMain, htag]
  · simp only [preregMain, htag]

theorem pack_build_deterministic_witness :
    ("v1" : String) ≠ "" ∧
      zenodoMain fsPdfs none (some "v1") false (some "abc") "20260101"
        = zenodoMain fsPdfs none (some "v1") false none "20270215" ∧
      preregMain fsPdfs none (some "v1") false "plr_prereg" (some "abc") "20260101"
        = preregMain fsPdfs none (some "v1") false "plr_prereg" none "20270215" :=
  ⟨by decide,
    (pack_build_deterministic fsPdfs none false "plr_prereg" "v1" (some "abc") none
      "20260101" "20270215" (by decide)).1,
    (pack_build_deterministic fsPdfs none false "plr_prereg" "v1" (some "abc") none
      "20260101" "20270215" (by decide)).2⟩

/-- C10: when `gather` collects no files, make_checksums.py exits with
status 1 and writes nothing — the emptiness check precedes both the `mkdir`
and the `open(outpath, "w")`. -/
theorem make_checksums_empty_aborts (H : List Nat → String) (fs : Fs) (incD : Bool)
    (outArg : String) (h : gather fs incD = []) :
    makeChecksumsMain H fs incD outArg = ⟨1, none⟩ := by
  simp [makeChecksumsMain, h]

theorem make_checksums_empty_aborts_witness :
    gather fsEmpty false = [] ∧
      makeChecksumsMain hashLen fsEmpty false "reports/checksums_SHA256.txt" = ⟨1, none⟩ :=
  ⟨by decide,
    make_checksums_empty_aborts hashLen fsEmpty false "reports/checksums_SHA256.txt"
      (by decide)⟩

theorem string_mk_data (s : String) : String.mk s.data = s := rfl

theorem line_data (d rel : String) :
    (d ++ "  " ++ rel).data = d.data ++ (' ' :: ' ' :: rel.data) := by
  rw [String.data_append, String.data_append]
  have h2 : ("  " : String).data = [' ', ' '] := rfl
  rw [h2, List.append_assoc]
  rfl

theorem goodRel_spec (rel : String) (h : goodRel rel = true) :
    rel.data ≠ [] ∧ ∀ c ∈ rel.data, isPySpace c = false := by
  simp only [goodRel, Bool.and_eq_true, Bool.not_eq_true', List.all_eq_true] at h
  refine ⟨?_, fun c hc => by simpa using h.2 c hc⟩
  intro hnil
  rw [hnil] at h
  simp at h

theorem goodDigest_spec (d : String) (h : goodDigest d = true) :
    d.data ≠ [] ∧ (∀ c ∈ d.data, isPySpace c = false) ∧ d.data.head? ≠ some '#' := by
  simp only [goodDigest, Bool.and_eq_true, Bool.not_eq_true', List.all_eq_true,
    bne_iff_ne, ne_eq] at h
  refine ⟨?_, fun c hc => by simpa using h.1.2 c hc, h.2⟩
  intro hnil
  rw [hnil] at h
  simp at h

theorem splitWSAux_append_nonspace (xs : List Char) :
    ∀ (rest acc : List Char), (∀ c ∈ xs, isPySpace c = false) →
      splitWSAux (xs ++ rest) acc = splitWSAux rest (xs.reverse ++ acc) := by
  induction xs with
  | nil => intro rest acc _; simp
  | cons c cs ih =>
    intro rest acc hall
    have hc : isPySpace c = false := hall c (List.mem_cons_self c cs)
    simp only [List.cons_append, splitWSAux, hc, Bool.false_eq_true, if_false,
      List.append_eq]
    rw [ih rest (c :: acc) (fun x hx => hall x (List.mem_cons_of_mem c hx))]
    simp

theorem splitWSAux_all_nonspace (xs : List Char) (hne : xs ≠ [])
    (hall : ∀ c ∈ xs, isPySpace c = false) :
    splitWSAux xs [] = [xs] := by
  have h := splitWSAux_append_nonspace xs [] [] hall
  rw [List.append_nil] at h
  rw [h]
  simp only [splitWSAux, List.append_nil]
  rw [if_neg (by simpa using hne)]
  simp

theorem pySplit_line (d rel : String) (hd : goodDigest d = true) (hr : goodRel rel = true) :
    pySplit (d ++ "  " ++ rel) = [d, rel] := by
  obtain ⟨hdne, hdall, _⟩ := goodDigest_spec d hd
  obtain ⟨hrne, hrall⟩ := goodRel_spec rel hr
  unfold pySplit
  rw [line_data, splitWSAux_append_nonspace d.data _ [] hdall, List.append_nil]
  have hs : isPySpace ' ' = true := rfl
  have hacc : d.data.reverse.isEmpty = false := by
    simp [List.isEmpty_iff, hdne]
  simp only [splitWSAux, hs, if_true, hacc, Bool.false_eq_true, if_false,
    List.isEmpty_nil, List.reverse_reverse]
  rw [show rel.data = rel.data ++ [] by simp,
    splitWSAux_append_nonspace rel.data [] [] hrall, List.append_nil]
  have hrelrev : rel.data.reverse.isEmpty = false := by
    simp [List.isEmpty_iff, hrne]
  simp only [splitWSAux, hrelrev, Bool.false_eq_true, if_false, List.reverse_reverse]
  simp [string_mk_data]

theorem pyStrip_line (d rel : String) (hd : goodDigest d = true) (hr : goodRel rel = true) :
    pyStrip (d ++ "  " ++ rel) = d ++ "  " ++ rel := by
  obtain ⟨hdne, hdall, _⟩ := goodDigest_spec d hd
  obtain ⟨hrne, hrall⟩ := goodRel_spec rel hr
  obtain ⟨c1, cs1, h1⟩ := List.exists_cons_of_ne_nil hdne
  have hc1 : isPySpace c1 = false := hdall c1 (by rw [h1]; exact List.mem_cons_self c1 cs1)
  obtain ⟨c3, cs3, h3⟩ := List.exists_cons_of_ne_nil
    (show rel.data.reverse ≠ [] by simpa using hrne)
  have hc3 : isPySpace c3 = false := hrall c3 (by
    have : c3 ∈ rel.data.reverse := by rw [h3]; exact List.mem_cons_self c3 cs3
    exact List.mem_reverse.mp this)
  unfold pyStrip
  rw [line_data]
  have hdrop1 : (d.data ++ (' ' :: ' ' :: rel.data)).dropWhile isPySpace
      = d.data ++ (' ' :: ' ' :: rel.data) := by
    rw [h1, List.cons_append, List.dropWhile_cons, hc1]
    simp
  rw [hdrop1]
  have hrev : (d.data ++ (' ' :: ' ' :: rel.data)).reverse
      = (c3 :: cs3) ++ ([' ', ' '] ++ d.data.reverse) := by
    rw [← h3]
    simp
  rw [hrev]
  have hdrop2 : ((c3 :: cs3) ++ ([' ', ' '] ++ d.data.reverse)).dropWhile isPySpace
      = (c3 :: cs3) ++ ([' ', ' '] ++ d.data.reverse) := by
    rw [List.cons_append, List.dropWhile_cons, hc3]
    simp
  rw [hdrop2, ← hrev, List.reverse_reverse, ← line_data, string_mk_data]

theorem manifestStep_serialized (m : List (String × String)) (rel d : String)
    (hr : goodRel rel = true) (hd : goodDigest d = true) :
    manifestStep m (d ++ "  " ++ rel) = dictInsert m rel d := by
  obtain ⟨hdne, _, hdhash⟩ := goodDigest_spec d hd
  obtain ⟨c1, cs1, h1⟩ := List.exists_cons_of_ne_nil hdne
  have hempty : (pyStrip (d ++ "  " ++ rel)).data.isEmpty = false := by
    rw [pyStrip_line d rel hd hr, line_data, h1]
    rfl
  have hc1hash : c1 ≠ '#' := by
    intro hh
    apply hdhash
    rw [h1, List.head?_cons, hh]
  have hhash : ¬ (pyStrip (d ++ "  " ++ rel)).data.head? = some '#' := by
    rw [pyStrip_line d rel hd hr, line_data, h1]
    simp only [List.cons_append, List.head?_cons]
    intro hh
    exact hc1hash (Option.some.inj hh)
  simp only [manifestStep, hempty, Bool.false_eq_true, if_false]
  rw [if_neg hhash, pyStrip_line d rel hd hr, pySplit_line d rel hd hr]
  simp [List.getLastD, List.headD]

theorem dictInsert_not_mem (m : List (String × String)) (k v : String)
    (h : k ∉ dictKeys m) : dictInsert m k v = m ++ [(k, v)] := by
  induction m with
  | nil => rfl
  | cons e rest ih =>
    simp only [dictKeys, List.map_cons, List.mem_cons] at h
    push_neg at h
    rw [dictInsert, if_neg (fun hh => h.1 hh.symm), List.cons_append,
      ih (by simpa [dictKeys] using h.2)]

theorem manifestStep_header (m : List (String × String)) :
    manifestStep m manifestHeader = m := by
  have h1 : (pyStrip manifestHeader).data.isEmpty = false := by decide
  have h2 : (pyStrip manifestHeader).data.head? = some '#' := by decide
  simp [manifestStep, h1, h2]

theorem foldl_manifestStep_serialized (entries : List (String × String)) :
    ∀ m : List (String × String),
      (∀ e ∈ entries, goodRel e.1 = true ∧ goodDigest e.2 = true) →
      (entries.map (fun e => e.1)).Nodup →
      (∀ e ∈ entries, e.1 ∉ dictKeys m) →
      (entries.map (fun e => e.2 ++ "  " ++ e.1)).foldl manifestStep m = m ++ entries := by
  induction entries with
  | nil => intro m _ _ _; simp
  | cons e rest ih =>
    intro m hgood hnd hdisj
    have hge := hgood e (List.mem_cons_self e rest)
    simp only [List.map_cons, List.foldl_cons]
    rw [manifestStep_serialized m e.1 e.2 hge.1 hge.2,
      dictInsert_not_mem m e.1 e.2 (hdisj e (List.mem_cons_self e rest))]
    simp only [List.map_cons, List.nodup_cons] at hnd
    rw [ih (m ++ [e]) (fun x hx => hgood x (List.mem_cons_of_mem e hx)) hnd.2 ?_]
    · simp
    · intro x hx
      simp only [dictKeys, List.map_append, List.map_cons, List.map_nil, List.mem_append,
        List.mem_cons, List.not_mem_nil, or_false]
      push_neg
      refine ⟨by simpa [dictKeys] using hdisj x (List.mem_cons_of_mem e hx), ?_⟩
      intro hh
      exact hnd.1 (hh ▸ List.mem_map_of_mem (fun y => y.1) hx)

/-- C2 counterexample: the empty relative path contains no whitespace, yet
serializing the mapping sending it to a (hex) digest and parsing back loses
the entry — the line `digest ++ two spaces` strips to a single token and is
ignored, so the parsed mapping is not the original one. -/
theorem manifest_roundtrip_empty_path_cex :
    ("" : String).data.all (fun c => !isPySpace c) = true ∧
      goodDigest cDigest = true ∧
      load_manifest (serializeManifest [("", cDigest)]) = [] ∧
      dictLookup (load_manifest (serializeManifest [("", cDigest)])) "" ≠ some cDigest :=
  ⟨by decide, by decide, by decide, by decide⟩

/-- C2 (amended): for a mapping whose relative paths are nonempty and free
of whitespace and whose digests are wellformed `hexdigest` outputs
(nonempty, whitespace-free, not beginning with `#`), parsing the serialized
manifest yields exactly the original mapping. -/
theorem manifest_roundtrip (entries : List (String × String))
    (hkeys : (entries.map (fun e => e.1)).Nodup)
    (hgood : ∀ e ∈ entries, goodRel e.1 = true ∧ goodDigest e.2 = true) :
    load_manifest (serializeManifest entries) = entries := by
  unfold load_manifest serializeManifest
  rw [List.foldl_cons, manifestStep_header,
    foldl_manifestStep_serialized entries [] hgood hkeys (by simp [dictKeys])]
  simp

theorem manifest_roundtrip_witness :
    ((([("reports/x.txt", cDigest), ("main.pdf", "bb")] :
        List (String × String)).map (fun e => e.1)).Nodup ∧
      load_manifest (serializeManifest [("reports/x.txt", cDigest), ("main.pdf", "bb")])
        = [("reports/x.txt", cDigest), ("main.pdf", "bb")]) :=
  ⟨by decide,
    manifest_roundtrip [("reports/x.txt", cDigest), ("main.pdf", "bb")] (by decide)
      (by decide)⟩
